import Mathlib

/-!
Shallow embedding of `packages/arb-validator/ethbridge/bisectionChallenge.go`
(the `bisectionChallenge` type: `StartConnection`, `processEvents`,
`chooseSegment`) together with the external collaborators it uses, modelled
as explicit environments.  Hashes, addresses and transaction hashes are
abstracted as natural numbers; big.Int values decoded from events are
natural numbers (they decode unsigned ABI integers).
-/

abbrev Hash := Nat
abbrev Address := Nat

deriving instance DecidableEq for Except

/-- A block header, as far as the code reads it: `header.Number` and the
derived `header.Hash()`. -/
structure Header where
  number : Nat
  hashVal : Hash
  deriving Repr, DecidableEq

def defaultHeader : Header := ⟨0, 0⟩

/-- One `types.Log` entry: address, topic list, block hash, transaction
hash and block number. -/
structure LogEntry where
  address : Address
  topics : List Hash
  blockHash : Hash
  txHash : Hash
  blockNumber : Nat
  deriving Repr, DecidableEq

/-- The decoded `Continued` event payload returned by `ParseContinued`
(`SegmentIndex`, `DeadlineTicks`, both unsigned big integers). -/
structure Continued where
  segmentIndex : Nat
  deadlineTicks : Nat
  deriving Repr, DecidableEq

/-- `arbbridge.ContinueChallengeEvent{SegmentIndex, Deadline}`. -/
structure ContinueChallengeEvent where
  segmentIndex : Nat
  deadline : Nat
  deriving Repr, DecidableEq

/-- `arbbridge.Notification` as built in `processEvents`. -/
structure Notification where
  blockHeader : Hash
  blockHeight : Nat
  vmid : Address
  event : ContinueChallengeEvent
  txHash : Hash
  deriving Repr, DecidableEq

/-- Failures the Go code can observe from its collaborators. -/
inductive GoErr
  | baseStartFailed
  | setupContractsFailed
  | headerByNumberFailed
  | filterLogsFailed
  | subscribeFailed
  | headerByHashFailed
  | parseContinuedFailed
  | subscriptionErr (code : Nat)
  deriving Repr, DecidableEq

/-- The environment of external collaborators visible to the code:
the one-time topic digest `continuedChallengeID` (a package-level value
computed from the contract ABI at startup), the eth client calls used by
`StartConnection`/`processEvents`, and the authoritative log contents.
`Option` results model fallible calls (`none` = the call returned an
error). -/
structure EthEnv where
  continuedChallengeID : Hash
  headerByHash : Hash → Option Header
  parseContinued : LogEntry → Option Continued
  baseStartOk : Bool
  setupOk : Bool
  headerByNumber : Option Header
  logs : List LogEntry
  filterLogsOk : Bool
  subscribeOk : Bool

/-- The filter built in `StartConnection`: `Addresses = [c.address]`,
`Topics = [[continuedChallengeID]]`.  An entry matches when its address is
the challenge address and its first topic is the registered digest. -/
def matchesFilter (addr : Address) (id : Hash) (e : LogEntry) : Bool :=
  e.address == addr && e.topics.head? == some id

/-- `FilterLogs` with `ToBlock = header.Number` (historical query, from
genesis): the log entries matching the filter at height ≤ `headNumber`. -/
def histMatching (env : EthEnv) (addr : Address) (headNumber : Nat) : List LogEntry :=
  env.logs.filter fun e =>
    matchesFilter addr env.continuedChallengeID e && decide (e.blockNumber ≤ headNumber)

/-- `SubscribeFilterLogs` with `FromBlock = header.Number + 1`: the log
entries matching the filter at height ≥ `headNumber + 1`, delivered on the
live channel. -/
def liveMatching (env : EthEnv) (addr : Address) (headNumber : Nat) : List LogEntry :=
  env.logs.filter fun e =>
    matchesFilter addr env.continuedChallengeID e && decide (headNumber + 1 ≤ e.blockNumber)

/-- `processEvents` (bisectionChallenge.go:136-159).  The outer `Option` is
`none` exactly when the Go code would evaluate `log.Topics[0]` on an empty
topic list, which has no defined result (runtime panic).  Otherwise the
result is the returned error, or `ok` together with the notification pushed
to `outChan` (if any). -/
def processEvents (env : EthEnv) (addr : Address) (log : LogEntry) :
    Option (Except GoErr (Option Notification)) :=
  match env.headerByHash log.blockHash with
  | none => some (Except.error GoErr.headerByHashFailed)
  | some header =>
    match log.topics.head? with
    | none => none
    | some t0 =>
      if t0 = env.continuedChallengeID then
        match env.parseContinued log with
        | none => some (Except.error GoErr.parseContinuedFailed)
        | some contChal =>
          some (Except.ok (some
            { blockHeader := header.hashVal
              blockHeight := header.number
              vmid := addr
              event := { segmentIndex := contChal.segmentIndex
                         deadline := contChal.deadlineTicks }
              txHash := log.txHash }))
      else some (Except.ok none)

/-- Outcome of the historical replay loop of `StartConnection`
(bisectionChallenge.go:101-105). -/
inductive HistOutcome
  | ok
  | failed (g : GoErr)
  | panicked
  deriving Repr, DecidableEq

/-- The historical loop: `for _, log := range logs { if err :=
processEvents(...); err != nil { return err } }`.  Returns the
notifications pushed to `outChan` and how the loop ended. -/
def runHistorical (env : EthEnv) (addr : Address) :
    List LogEntry → List Notification × HistOutcome
  | [] => ([], HistOutcome.ok)
  | e :: rest =>
    match processEvents env addr e with
    | none => ([], HistOutcome.panicked)
    | some (Except.error g) => ([], HistOutcome.failed g)
    | some (Except.ok none) => runHistorical env addr rest
    | some (Except.ok (some n)) =>
      let r := runHistorical env addr rest
      (n :: r.1, r.2)

/-- One arrival at the `select` of the background goroutine
(bisectionChallenge.go:118-131): the context becomes done, a log entry
arrives on `logChan`, or an error arrives on `logSub.Err()`. -/
inductive SelectEvent
  | cancelled
  | logArrival (e : LogEntry)
  | subErrorAt (code : Nat)
  deriving Repr, DecidableEq

/-- What the background goroutine did over a schedule of select arrivals:
notifications pushed to `outChan`, errors pushed to `errChan`, whether the
goroutine returned (running the deferred `logSub.Unsubscribe()`), and
whether it panicked. -/
structure LoopResult where
  emitted : List Notification
  errors : List GoErr
  returned : Bool
  panicked : Bool
  deriving Repr, DecidableEq

/-- The goroutine loop of `StartConnection` (bisectionChallenge.go:115-132),
run over a schedule of select arrivals.  In the `<-ctx.Done()` case the Go
code executes `break`, which terminates only the `select` statement; the
`for` loop continues, so the model keeps consuming the schedule.  The two
error cases send on `errChan` and `return`. -/
def goLoop (env : EthEnv) (addr : Address) : List SelectEvent → LoopResult
  | [] => ⟨[], [], false, false⟩
  | SelectEvent.cancelled :: rest => goLoop env addr rest
  | SelectEvent.logArrival e :: rest =>
    match processEvents env addr e with
    | none => ⟨[], [], true, true⟩
    | some (Except.error g) => ⟨[], [g], true, false⟩
    | some (Except.ok none) => goLoop env addr rest
    | some (Except.ok (some n)) =>
      let r := goLoop env addr rest
      ⟨n :: r.emitted, r.errors, r.returned, r.panicked⟩
  | SelectEvent.subErrorAt code :: _rest => ⟨[], [GoErr.subscriptionErr code], true, false⟩

/-- How `StartConnection` itself returned. -/
inductive ConnOutcome
  | ok
  | err (g : GoErr)
  | panicked
  deriving Repr, DecidableEq

/-- Observable outcome of a `StartConnection` call: everything pushed to
`outChan` (historical then live), everything pushed to `errChan`, the
function's return value, whether the background goroutine was started,
whether `SubscribeFilterLogs` succeeded (a live subscription was created),
and whether the deferred `logSub.Unsubscribe()` ran. -/
structure ConnResult where
  emitted : List Notification
  errChan : List GoErr
  ret : ConnOutcome
  taskStarted : Bool
  subscribed : Bool
  unsubscribed : Bool
  deriving Repr, DecidableEq

/-- `StartConnection` (bisectionChallenge.go:76-134): base connection, then
`setupContracts`, then `HeaderByNumber(ctx, nil)` for the head height, then
the bounded historical `FilterLogs` replay, then `SubscribeFilterLogs` from
head+1 and the background goroutine over the live schedule.  Every failure
before the goroutine starts is returned directly. -/
def StartConnection (env : EthEnv) (addr : Address) (live : List SelectEvent) : ConnResult :=
  if env.baseStartOk = true then
    if env.setupOk = true then
      match env.headerByNumber with
      | none => ⟨[], [], ConnOutcome.err GoErr.headerByNumberFailed, false, false, false⟩
      | some header =>
        if env.filterLogsOk = true then
          let hr := runHistorical env addr (histMatching env addr header.number)
          match hr.2 with
          | HistOutcome.failed g => ⟨hr.1, [], ConnOutcome.err g, false, false, false⟩
          | HistOutcome.panicked => ⟨hr.1, [], ConnOutcome.panicked, false, false, false⟩
          | HistOutcome.ok =>
            if env.subscribeOk = true then
              let g := goLoop env addr live
              ⟨hr.1 ++ g.emitted, g.errors, ConnOutcome.ok, true, true, g.returned⟩
            else ⟨hr.1, [], ConnOutcome.err GoErr.subscribeFailed, false, false, false⟩
        else ⟨[], [], ConnOutcome.err GoErr.filterLogsFailed, false, false, false⟩
    else ⟨[], [], ConnOutcome.err GoErr.setupContractsFailed, false, false, false⟩
  else ⟨[], [], ConnOutcome.err GoErr.baseStartFailed, false, false, false⟩

/-- The notification `processEvents` builds for a log entry whose header
lookup and event decode succeed (total form, via defaults). -/
def notifyOf (env : EthEnv) (addr : Address) (e : LogEntry) : Notification :=
  let h := (env.headerByHash e.blockHash).getD defaultHeader
  let c := (env.parseContinued e).getD ⟨0, 0⟩
  ⟨h.hashVal, h.number, addr, ⟨c.segmentIndex, c.deadlineTicks⟩, e.txHash⟩

/-- A log entry the synchronizer can process into a notification: its first
topic is the registered digest, its block header resolves and its payload
decodes. -/
def goodEntry (env : EthEnv) (e : LogEntry) : Prop :=
  e.topics.head? = some env.continuedChallengeID ∧
  (env.headerByHash e.blockHash).isSome = true ∧
  (env.parseContinued e).isSome = true

instance (env : EthEnv) (e : LogEntry) : Decidable (goodEntry env e) := by
  unfold goodEntry
  infer_instance

/-- Errors of the bisection-client path (spec §7 taxonomy, as far as
`chooseSegment` can observe them). -/
inductive ChalError
  | invalidInput
  | indexOutOfRange
  | submissionFailed (code : Nat)
  | receiptFailed (code : Nat)
  deriving Repr, DecidableEq

/-- Modelled from the spec: deterministic combining hash for internal
Merkle nodes (§4.1, "Internal node value = deterministic hash of
(leftChild ++ rightChild)"); the hash function itself lives in arb-util,
outside src/, so any fixed injective-enough stand-in represents it. -/
def combineHash (a b : Nat) : Nat :=
  (a + b) * (a + b + 1) / 2 + b + 1

/-- Fuel-bounded doubling loop computing the least power of two ≥ `n`
(stops once `acc ≥ n`). -/
def nextPow2Aux (n : Nat) : Nat → Nat → Nat
  | 0, acc => acc
  | fuel + 1, acc => if n ≤ acc then acc else nextPow2Aux n fuel (2 * acc)

/-- Modelled from the spec: the next power of two ≥ `n` (§4.1, leaf count
of the perfect tree). -/
def nextPow2 (n : Nat) : Nat := nextPow2Aux n n 1

/-- Modelled from the spec: one level of the perfect tree, combining
adjacent pairs. -/
def hashLevel : List Nat → List Nat
  | a :: b :: rest => combineHash a b :: hashLevel rest
  | l => l

/-- Modelled from the spec: fold a leaf level up to the root (fuel-bounded
iteration of `hashLevel`). -/
def rootAux : Nat → List Nat → Nat
  | 0, l => l.headD 0
  | fuel + 1, l => if l.length ≤ 1 then l.headD 0 else rootAux fuel (hashLevel l)

/-- Modelled from the spec: the bottom-to-top sibling path for leaf `i`
(§4.1, inclusion proof), flattened into one sequence of digests. -/
def proofAux : Nat → List Nat → Nat → List Nat
  | 0, _, _ => []
  | fuel + 1, level, i =>
    if level.length ≤ 1 then []
    else level.getD (i ^^^ 1) 0 :: proofAux fuel (hashLevel level) (i / 2)

/-- Modelled from the spec: the commitment tree of arb-util
(`NewMerkleTree` and its methods are not under src/; §4.1 fixes their
contract).  The tree is determined by its segment sequence; leaves are
padded with the zero sentinel up to the next power of two. -/
structure MerkleTree where
  segments : List Nat
  deriving Repr, DecidableEq

/-- Modelled from the spec: the padded leaf level. -/
def MerkleTree.paddedLeaves (t : MerkleTree) : List Nat :=
  t.segments ++ List.replicate (nextPow2 t.segments.length - t.segments.length) 0

/-- Modelled from the spec: `build` fails with `InvalidInput` if `segments`
is empty (§4.1). -/
def NewMerkleTree (segments : List Nat) : Except ChalError MerkleTree :=
  if segments.isEmpty then Except.error ChalError.invalidInput
  else Except.ok ⟨segments⟩

/-- Modelled from the spec: `root()`, the top commitment value. -/
def MerkleTree.GetRoot (t : MerkleTree) : Nat :=
  rootAux t.paddedLeaves.length t.paddedLeaves

/-- Modelled from the spec: `leafValue(index)`, failing with
`IndexOutOfRange` if `index ≥ segments.length` (§4.1). -/
def MerkleTree.GetNode (t : MerkleTree) (i : Nat) : Except ChalError Nat :=
  if i < t.segments.length then Except.ok (t.paddedLeaves.getD i 0)
  else Except.error ChalError.indexOutOfRange

/-- Modelled from the spec: `proof(index)`, failing with `IndexOutOfRange`
if `index ≥ segments.length` (§4.1), otherwise the flattened sibling path. -/
def MerkleTree.GetProofFlat (t : MerkleTree) (i : Nat) : Except ChalError (List Nat) :=
  if i < t.segments.length then
    Except.ok (proofAux t.paddedLeaves.length t.paddedLeaves i)
  else Except.error ChalError.indexOutOfRange

/-- The Go `int64(x)` conversion on a value already reduced mod 2^64:
two's-complement reinterpretation. -/
def int64Of (n : Nat) : Int :=
  if n % 2 ^ 64 < 2 ^ 63 then ((n % 2 ^ 64 : Nat) : Int)
  else ((n % 2 ^ 64 : Nat) : Int) - 2 ^ 64

/-- `big.NewInt(int64(segmentToChallenge))` in `chooseSegment`
(bisectionChallenge.go:170): the `uint16` index widened to `int64` and
lifted to an arbitrary-precision integer. -/
def segmentIndexArg (s : Fin 65536) : Int := int64Of s.val

/-- The on-chain move submitted by `chooseSegment`: segment index, flat
inclusion proof, tree root, leaf value. -/
structure Move where
  segmentIndex : Int
  proof : List Nat
  root : Nat
  leafValue : Nat
  deriving Repr, DecidableEq

/-- The transaction sink (`c.BisectionChallenge.ChooseSegment`, the
contract binding, and `waitForReceipt`, both outside src/).  Modelled from
the spec: `submit(move) -> pending handle`; `awaitConfirmation(handle) ->
Confirmation | Error` (§6). -/
structure TxSink where
  submit : Move → Except ChalError Nat
  waitForReceipt : Nat → Except ChalError Unit

/-- Submit a move and block until the sink confirms or fails, propagating
the sink's result — the tail of `chooseSegment`
(bisectionChallenge.go:168-178). -/
def sinkRun (sink : TxSink) (m : Move) : Except ChalError Unit :=
  match sink.submit m with
  | Except.error e => Except.error e
  | Except.ok tx => sink.waitForReceipt tx

/-- `chooseSegment` (bisectionChallenge.go:161-179): build the tree, read
proof / root / leaf value for the chosen index (argument evaluation order),
submit the move and wait for the receipt.  The second component records
every move actually handed to the sink. -/
def chooseSegment (sink : TxSink) (segmentToChallenge : Fin 65536)
    (segments : List Nat) : Except ChalError Unit × List Move :=
  match NewMerkleTree segments with
  | Except.error e => (Except.error e, [])
  | Except.ok tree =>
    match tree.GetProofFlat segmentToChallenge.val with
    | Except.error e => (Except.error e, [])
    | Except.ok pf =>
      match tree.GetNode segmentToChallenge.val with
      | Except.error e => (Except.error e, [])
      | Except.ok node =>
        let m : Move := ⟨segmentIndexArg segmentToChallenge, pf, tree.GetRoot, node⟩
        match sink.submit m with
        | Except.error e => (Except.error e, [m])
        | Except.ok tx =>
          match sink.waitForReceipt tx with
          | Except.error e => (Except.error e, [m])
          | Except.ok _ => (Except.ok (), [m])

/-- The move `chooseSegment` submits for an in-range index. -/
def moveFor (segmentToChallenge : Fin 65536) (segments : List Nat) : Move :=
  ⟨segmentIndexArg segmentToChallenge,
   proofAux (MerkleTree.mk segments).paddedLeaves.length
     (MerkleTree.mk segments).paddedLeaves segmentToChallenge.val,
   (MerkleTree.mk segments).GetRoot,
   (MerkleTree.mk segments).paddedLeaves.getD segmentToChallenge.val 0⟩

/-- Scripted log entry confirmed at height 2 (matching topic 7). -/
def entry2 : LogEntry := ⟨1, [7], 102, 202, 2⟩

/-- Scripted log entry confirmed at height 5 (matching topic 7). -/
def entry5 : LogEntry := ⟨1, [7], 105, 205, 5⟩

/-- Scripted log entry confirmed at height 9 (matching topic 7). -/
def entry9 : LogEntry := ⟨1, [7], 109, 209, 9⟩

/-- A log entry at the subscribed address whose first topic is not the
registered digest. -/
def entryOther : LogEntry := ⟨1, [99], 102, 203, 3⟩

/-- A log entry with an empty topic list. -/
def entryNoTopics : LogEntry := ⟨1, [], 102, 204, 4⟩

/-- Header lookup of the scripted chain: block hash 10h resolves to a
header at height h with header hash 1000 + h. -/
def scriptedHeaderByHash (h : Hash) : Option Header :=
  if h = 102 then some ⟨2, 1002⟩
  else if h = 105 then some ⟨5, 1005⟩
  else if h = 109 then some ⟨9, 1009⟩
  else none

/-- Scripted `ParseContinued`: every entry decodes, with segment index its
block number and deadline 40 + block number. -/
def scriptedParse (e : LogEntry) : Option Continued :=
  some ⟨e.blockNumber, 40 + e.blockNumber⟩

/-- The scripted authoritative log of §8: matching events at heights
{2, 5, 9}, head height 6, dispute identity (address) 1, topic digest 7. -/
def envScripted : EthEnv :=
  ⟨7, scriptedHeaderByHash, scriptedParse, true, true, some ⟨6, 1006⟩,
   [entry2, entry5, entry9], true, true⟩

/-- The cancellation scenario: no historical events (the only matching
event, at height 9, is past the head height 6). -/
def envCancel : EthEnv :=
  ⟨7, scriptedHeaderByHash, scriptedParse, true, true, some ⟨6, 1006⟩,
   [entry9], true, true⟩

/-- A scripted environment whose base connection call fails. -/
def envBaseFail : EthEnv :=
  ⟨7, scriptedHeaderByHash, scriptedParse, false, true, some ⟨6, 1006⟩,
   [entry2, entry5, entry9], true, true⟩

/-- A transaction sink that accepts every move and confirms every receipt. -/
def sink0 : TxSink := ⟨fun _ => Except.ok 0, fun _ => Except.ok ()⟩

theorem processEvents_of_goodEntry (env : EthEnv) (addr : Address) (e : LogEntry)
    (h : goodEntry env e) :
    processEvents env addr e = some (Except.ok (some (notifyOf env addr e))) := by
  obtain ⟨h1, h2, h3⟩ := h
  cases hh : env.headerByHash e.blockHash with
  | none => rw [hh] at h2; simp at h2
  | some hdr =>
    cases hc : env.parseContinued e with
    | none => rw [hc] at h3; simp at h3
    | some c => simp [processEvents, notifyOf, hh, h1, hc]

theorem runHistorical_of_good (env : EthEnv) (addr : Address) :
    ∀ l : List LogEntry, (∀ e ∈ l, goodEntry env e) →
      runHistorical env addr l = (l.map (notifyOf env addr), HistOutcome.ok) := by
  intro l
  induction l with
  | nil => intro _; rfl
  | cons e rest ih =>
    intro h
    have he := h e (by simp)
    have hr := ih fun x hx => h x (by simp [hx])
    simp [runHistorical, processEvents_of_goodEntry env addr e he, hr]

theorem goLoop_of_good (env : EthEnv) (addr : Address) :
    ∀ l : List LogEntry, (∀ e ∈ l, goodEntry env e) →
      goLoop env addr (l.map SelectEvent.logArrival) =
        ⟨l.map (notifyOf env addr), [], false, false⟩ := by
  intro l
  induction l with
  | nil => intro _; rfl
  | cons e rest ih =>
    intro h
    have he := h e (by simp)
    have hr := ih fun x hx => h x (by simp [hx])
    simp [goLoop, processEvents_of_goodEntry env addr e he, hr]

theorem filter_le_append_filter_ge (m : LogEntry → Bool) (bound : Nat) :
    ∀ l : List LogEntry, List.Pairwise (fun a b => a.blockNumber ≤ b.blockNumber) l →
      l.filter (fun e => m e && decide (e.blockNumber ≤ bound)) ++
        l.filter (fun e => m e && decide (bound + 1 ≤ e.blockNumber)) = l.filter m := by
  intro l
  induction l with
  | nil => intro _; rfl
  | cons e rest ih =>
    intro hp
    obtain ⟨hall, hrest⟩ := List.pairwise_cons.mp hp
    cases hm : m e with
    | false => simpa [List.filter_cons, hm] using ih hrest
    | true =>
      by_cases hle : e.blockNumber ≤ bound
      · have hnot : ¬ (bound + 1 ≤ e.blockNumber) := by omega
        simpa [List.filter_cons, hm, hle, hnot] using ih hrest
      · have hgt : bound + 1 ≤ e.blockNumber := by omega
        have hnil : rest.filter (fun x => m x && decide (x.blockNumber ≤ bound)) = [] := by
          refine List.filter_eq_nil_iff.mpr fun a ha => ?_
          have := hall a ha
          simp only [Bool.and_eq_true, decide_eq_true_eq, not_and]
          intro _
          omega
        have hcongr : rest.filter (fun x => m x && decide (bound + 1 ≤ x.blockNumber)) =
            rest.filter m := by
          refine List.filter_congr fun a ha => ?_
          have := hall a ha
          have : bound + 1 ≤ a.blockNumber := by omega
          simp [this]
        simp [List.filter_cons, hm, hle, hgt, hnil, hcongr]

theorem hist_live_partition (env : EthEnv) (addr : Address) (headNumber : Nat)
    (hs : List.Pairwise (fun a b => a.blockNumber ≤ b.blockNumber) env.logs) :
    histMatching env addr headNumber ++ liveMatching env addr headNumber =
      env.logs.filter (matchesFilter addr env.continuedChallengeID) :=
  filter_le_append_filter_ge _ headNumber env.logs hs

/-- Claim C1: for every dispute identity and every authoritative log (sorted
by height, with resolvable matching entries), starting the synchronizer
reads the head height `H` from the head header, emits every matching
historical event confirmed at or before `H` exactly once in log order, and
anchors the live subscription at `H + 1`, so the full stream equals one
notification per matching log entry, in log order — history strictly before
live, no gap, no duplicate — with non-decreasing block heights, and nothing
on the error channel. -/
theorem sync_history_live_exactly_once
    (env : EthEnv) (addr : Address) (hd : Header)
    (hbase : env.baseStartOk = true)
    (hsetup : env.setupOk = true)
    (hhead : env.headerByNumber = some hd)
    (hfl : env.filterLogsOk = true)
    (hsub : env.subscribeOk = true)
    (hsorted : List.Pairwise (fun a b => a.blockNumber ≤ b.blockNumber) env.logs)
    (hgood : ∀ e ∈ env.logs, matchesFilter addr env.continuedChallengeID e = true →
      goodEntry env e ∧
        ((env.headerByHash e.blockHash).getD defaultHeader).number = e.blockNumber) :
    (StartConnection env addr
        ((liveMatching env addr hd.number).map SelectEvent.logArrival)).emitted =
      (env.logs.filter (matchesFilter addr env.continuedChallengeID)).map (notifyOf env addr) ∧
    (StartConnection env addr
        ((liveMatching env addr hd.number).map SelectEvent.logArrival)).ret = ConnOutcome.ok ∧
    (StartConnection env addr
        ((liveMatching env addr hd.number).map SelectEvent.logArrival)).errChan = [] ∧
    List.Pairwise (· ≤ ·)
      ((StartConnection env addr
        ((liveMatching env addr hd.number).map SelectEvent.logArrival)).emitted.map
        Notification.blockHeight) := by
  have hmemH : ∀ e ∈ histMatching env addr hd.number, goodEntry env e := by
    intro e he
    obtain ⟨hmem, hpred⟩ := List.mem_filter.mp he
    simp only [Bool.and_eq_true] at hpred
    exact (hgood e hmem hpred.1).1
  have hmemL : ∀ e ∈ liveMatching env addr hd.number, goodEntry env e := by
    intro e he
    obtain ⟨hmem, hpred⟩ := List.mem_filter.mp he
    simp only [Bool.and_eq_true] at hpred
    exact (hgood e hmem hpred.1).1
  have hrh := runHistorical_of_good env addr _ hmemH
  have hgl := goLoop_of_good env addr _ hmemL
  have hres : StartConnection env addr
      ((liveMatching env addr hd.number).map SelectEvent.logArrival) =
      ⟨(histMatching env addr hd.number).map (notifyOf env addr) ++
        (liveMatching env addr hd.number).map (notifyOf env addr),
        [], ConnOutcome.ok, true, true, false⟩ := by
    simp [StartConnection, hbase, hsetup, hhead, hfl, hsub, hrh, hgl]
  have hemit : (histMatching env addr hd.number).map (notifyOf env addr) ++
      (liveMatching env addr hd.number).map (notifyOf env addr) =
      (env.logs.filter (matchesFilter addr env.continuedChallengeID)).map (notifyOf env addr) := by
    rw [← List.map_append, hist_live_partition env addr hd.number hsorted]
  rw [hres]
  refine ⟨hemit, rfl, rfl, ?_⟩
  have hmap : ((env.logs.filter (matchesFilter addr env.continuedChallengeID)).map
      (notifyOf env addr)).map Notification.blockHeight =
      (env.logs.filter (matchesFilter addr env.continuedChallengeID)).map
        (fun e => e.blockNumber) := by
    rw [List.map_map]
    refine List.map_congr_left fun e he => ?_
    obtain ⟨hmem, hm⟩ := List.mem_filter.mp he
    simpa [notifyOf] using (hgood e hmem hm).2
  dsimp only
  rw [hemit, hmap]
  exact List.pairwise_map.mpr
    (List.Pairwise.sublist (List.filter_sublist env.logs) hsorted)

theorem sync_history_live_exactly_once_witness :
    (envScripted.baseStartOk = true ∧ envScripted.setupOk = true ∧
      envScripted.headerByNumber = some ⟨6, 1006⟩ ∧
      envScripted.filterLogsOk = true ∧ envScripted.subscribeOk = true ∧
      List.Pairwise (fun a b => a.blockNumber ≤ b.blockNumber) envScripted.logs ∧
      (∀ e ∈ envScripted.logs, matchesFilter 1 envScripted.continuedChallengeID e = true →
        goodEntry envScripted e ∧
          ((envScripted.headerByHash e.blockHash).getD defaultHeader).number = e.blockNumber)) ∧
    (StartConnection envScripted 1
        ((liveMatching envScripted 1 6).map SelectEvent.logArrival)).emitted =
      (envScripted.logs.filter (matchesFilter 1 envScripted.continuedChallengeID)).map
        (notifyOf envScripted 1) ∧
    (StartConnection envScripted 1
        ((liveMatching envScripted 1 6).map SelectEvent.logArrival)).emitted =
      [⟨1002, 2, 1, ⟨2, 42⟩, 202⟩, ⟨1005, 5, 1, ⟨5, 45⟩, 205⟩,
        ⟨1009, 9, 1, ⟨9, 49⟩, 209⟩] :=
  ⟨by decide,
   (sync_history_live_exactly_once envScripted 1 ⟨6, 1006⟩ rfl rfl rfl rfl rfl
      (by decide) (by decide)).1,
   by decide⟩

/-- Claim C2 (code bug): in the goroutine's `select`, the `<-ctx.Done()`
case executes `break`, which terminates only the `select`, not the `for`
loop.  After cancellation the goroutine therefore keeps looping: with no
further arrivals it never returns, so the deferred `logSub.Unsubscribe()`
never runs (subscription not released), and a matching log entry arriving
after cancellation is still processed and its notification still emitted —
contradicting the claimed cancellation behaviour. -/
theorem cancellation_break_bug :
    (StartConnection envCancel 1 [SelectEvent.cancelled]).unsubscribed = false ∧
    (StartConnection envCancel 1 [SelectEvent.cancelled]).subscribed = true ∧
    (StartConnection envCancel 1
        [SelectEvent.cancelled, SelectEvent.logArrival entry9]).unsubscribed = false ∧
    (StartConnection envCancel 1
        [SelectEvent.cancelled, SelectEvent.logArrival entry9]).emitted =
      [⟨1009, 9, 1, ⟨9, 49⟩, 209⟩] := by
  decide

/-- Claim C3, counterexample: on the empty segment sequence (length `n = 0`,
index `0 ≥ n`), `chooseSegment` fails with `InvalidInput` from the tree
build, not with `IndexOutOfRange` as the claim states for every length. -/
theorem chooseSegment_empty_counterexample :
    chooseSegment sink0 0 [] = (Except.error ChalError.invalidInput, []) ∧
    ChalError.invalidInput ≠ ChalError.indexOutOfRange :=
  ⟨rfl, by decide⟩

/-- Claim C3 (amended): for every non-empty segment sequence of length `n`,
`chooseSegment` with `segmentToChallenge ≥ n` fails with `IndexOutOfRange`
and hands no move to the transaction sink. -/
theorem chooseSegment_out_of_range (sink : TxSink) (i : Fin 65536)
    (segments : List Nat) (hne : segments ≠ [])
    (hout : segments.length ≤ i.val) :
    chooseSegment sink i segments = (Except.error ChalError.indexOutOfRange, []) := by
  have hempty : segments.isEmpty = false := by
    cases segments with
    | nil => exact absurd rfl hne
    | cons a l => rfl
  have hnotlt : ¬ (i.val < segments.length) := by omega
  simp [chooseSegment, NewMerkleTree, hempty, MerkleTree.GetProofFlat, hnotlt]

theorem chooseSegment_out_of_range_witness :
    ([11, 22, 33, 44] : List Nat) ≠ [] ∧
    ([11, 22, 33, 44] : List Nat).length ≤ (4 : Fin 65536).val ∧
    chooseSegment sink0 4 [11, 22, 33, 44] =
      (Except.error ChalError.indexOutOfRange, []) :=
  ⟨by decide, by decide,
   chooseSegment_out_of_range sink0 4 [11, 22, 33, 44] (by decide) (by decide)⟩

/-- Claim C4: over any schedule of live-phase arrivals, at most one error is
ever pushed to the error channel; whenever an error is pushed the goroutine
has returned; whenever the goroutine returned (other than by a panic)
exactly one error was pushed; and once the goroutine has returned, any
further arrivals change nothing — no further notifications, no further
reads. -/
theorem live_errors_fatal_once (env : EthEnv) (addr : Address)
    (sched : List SelectEvent) :
    (goLoop env addr sched).errors.length ≤ 1 ∧
    ((goLoop env addr sched).errors ≠ [] → (goLoop env addr sched).returned = true) ∧
    ((goLoop env addr sched).returned = true → (goLoop env addr sched).panicked = false →
      (goLoop env addr sched).errors.length = 1) ∧
    ((goLoop env addr sched).returned = true →
      ∀ rest, goLoop env addr (sched ++ rest) = goLoop env addr sched) := by
  induction sched with
  | nil =>
    refine ⟨by simp [goLoop], by simp [goLoop], by simp [goLoop], ?_⟩
    intro h
    simp [goLoop] at h
  | cons ev rest ih =>
    cases ev with
    | cancelled =>
      refine ⟨by simpa [goLoop] using ih.1, by simpa [goLoop] using ih.2.1,
        by simpa [goLoop] using ih.2.2.1, ?_⟩
      intro h r
      simp only [goLoop] at h ⊢
      exact ih.2.2.2 h r
    | logArrival e =>
      cases hpe : processEvents env addr e with
      | none =>
        refine ⟨by simp [goLoop, hpe], by simp [goLoop, hpe],
          by simp [goLoop, hpe], ?_⟩
        intro _ r
        simp [goLoop, hpe]
      | some res =>
        cases res with
        | error g =>
          refine ⟨by simp [goLoop, hpe], by simp [goLoop, hpe],
            by simp [goLoop, hpe], ?_⟩
          intro _ r
          simp [goLoop, hpe]
        | ok onote =>
          cases onote with
          | none =>
            refine ⟨by simpa [goLoop, hpe] using ih.1,
              by simpa [goLoop, hpe] using ih.2.1,
              by simpa [goLoop, hpe] using ih.2.2.1, ?_⟩
            intro h r
            simp only [goLoop, hpe] at h ⊢
            exact ih.2.2.2 h r
          | some n =>
            refine ⟨by simpa [goLoop, hpe] using ih.1,
              by simpa [goLoop, hpe] using ih.2.1,
              by simpa [goLoop, hpe] using ih.2.2.1, ?_⟩
            intro h r
            have hret : (goLoop env addr rest).returned = true := by
              simpa [goLoop, hpe] using h
            simp only [goLoop, hpe]
            simp only [List.append_eq]
            rw [ih.2.2.2 hret r]
    | subErrorAt code =>
      refine ⟨by simp [goLoop], by simp [goLoop], by simp [goLoop], ?_⟩
      intro _ r
      simp [goLoop]

theorem live_errors_fatal_once_witness :
    (goLoop envScripted 1 [SelectEvent.subErrorAt 5]).errors ≠ [] ∧
    (goLoop envScripted 1 [SelectEvent.subErrorAt 5]).returned = true ∧
    (goLoop envScripted 1 [SelectEvent.subErrorAt 5]).errors.length = 1 ∧
    goLoop envScripted 1 ([SelectEvent.subErrorAt 5] ++ [SelectEvent.logArrival entry9]) =
      goLoop envScripted 1 [SelectEvent.subErrorAt 5] :=
  ⟨by decide,
   (live_errors_fatal_once envScripted 1 [SelectEvent.subErrorAt 5]).2.1 (by decide),
   (live_errors_fatal_once envScripted 1 [SelectEvent.subErrorAt 5]).2.2.1 (by decide)
     (by decide),
   (live_errors_fatal_once envScripted 1 [SelectEvent.subErrorAt 5]).2.2.2 (by decide)
     [SelectEvent.logArrival entry9]⟩

/-- Claim C5: only log entries whose first topic equals the registered
`Continued` topic digest are translated into a notification; an entry with
any other first topic (its header resolving as usual) is skipped — no
error, no notification. -/
theorem processEvents_topic_skip :
    (∀ (env : EthEnv) (addr : Address) (e : LogEntry) (hdr : Header) (t0 : Hash),
      env.headerByHash e.blockHash = some hdr → e.topics.head? = some t0 →
      t0 ≠ env.continuedChallengeID →
      processEvents env addr e = some (Except.ok none)) ∧
    (∀ (env : EthEnv) (addr : Address) (e : LogEntry) (n : Notification),
      processEvents env addr e = some (Except.ok (some n)) →
      e.topics.head? = some env.continuedChallengeID) := by
  constructor
  · intro env addr e hdr t0 hh ht hne
    simp [processEvents, hh, ht, hne]
  · intro env addr e n h
    unfold processEvents at h
    cases hh : env.headerByHash e.blockHash <;> rw [hh] at h
    · simp at h
    · cases ht : e.topics.head? <;> rw [ht] at h
      · simp at h
      · rename_i t0
        by_cases heq : t0 = env.continuedChallengeID
        · rw [heq]
        · simp [heq] at h

theorem processEvents_topic_skip_witness :
    envScripted.headerByHash entryOther.blockHash = some ⟨2, 1002⟩ ∧
    entryOther.topics.head? = some 99 ∧
    (99 : Hash) ≠ envScripted.continuedChallengeID ∧
    processEvents envScripted 1 entryOther = some (Except.ok none) ∧
    entry2.topics.head? = some envScripted.continuedChallengeID :=
  ⟨by decide, by decide, by decide,
   processEvents_topic_skip.1 envScripted 1 entryOther ⟨2, 1002⟩ 99
     (by decide) (by decide) (by decide),
   processEvents_topic_skip.2 envScripted 1 entry2
     ⟨1002, 2, 1, ⟨2, 42⟩, 202⟩ (by decide)⟩

/-- Claim C6: for a matching log entry, `processEvents` resolves the block
header by the entry's block hash and emits exactly the notification carrying
that header's hash, the block height, the challenge address, the decoded
`ContinueChallengeEvent{segmentIndex, deadline ticks}`, and the entry's
transaction hash. -/
theorem processEvents_notification_fields
    (env : EthEnv) (addr : Address) (e : LogEntry) (hdr : Header) (c : Continued)
    (hh : env.headerByHash e.blockHash = some hdr)
    (ht : e.topics.head? = some env.continuedChallengeID)
    (hp : env.parseContinued e = some c) :
    processEvents env addr e =
      some (Except.ok (some ⟨hdr.hashVal, hdr.number, addr,
        ⟨c.segmentIndex, c.deadlineTicks⟩, e.txHash⟩)) := by
  simp [processEvents, hh, ht, hp]

theorem processEvents_notification_fields_witness :
    envScripted.headerByHash entry2.blockHash = some ⟨2, 1002⟩ ∧
    entry2.topics.head? = some envScripted.continuedChallengeID ∧
    envScripted.parseContinued entry2 = some ⟨2, 42⟩ ∧
    processEvents envScripted 1 entry2 =
      some (Except.ok (some ⟨1002, 2, 1, ⟨2, 42⟩, 202⟩)) :=
  ⟨by decide, by decide, by decide,
   processEvents_notification_fields envScripted 1 entry2 ⟨2, 1002⟩ ⟨2, 42⟩
     (by decide) (by decide) (by decide)⟩

/-- Claim C7: for an in-range index, `chooseSegment` builds the commitment
tree over the segments and hands the sink exactly one move — the segment
index, the flattened inclusion proof for that leaf, the tree root and the
leaf value — then blocks on the sink (submit, then receipt) and propagates
the sink's result. -/
theorem chooseSegment_submits_move (sink : TxSink) (i : Fin 65536)
    (segments : List Nat) (hin : i.val < segments.length) :
    chooseSegment sink i segments =
      (sinkRun sink (moveFor i segments), [moveFor i segments]) := by
  have hempty : segments.isEmpty = false := by
    cases segments with
    | nil => simp at hin
    | cons a l => rfl
  unfold chooseSegment NewMerkleTree
  simp only [hempty, Bool.false_eq_true, if_false]
  unfold MerkleTree.GetProofFlat MerkleTree.GetNode
  simp only [hin, if_true]
  unfold sinkRun moveFor
  cases hs : sink.submit ⟨segmentIndexArg i,
      proofAux (MerkleTree.mk segments).paddedLeaves.length
        (MerkleTree.mk segments).paddedLeaves i.val,
      (MerkleTree.mk segments).GetRoot,
      (MerkleTree.mk segments).paddedLeaves.getD i.val 0⟩ with
  | error err => simp [hs]
  | ok tx =>
    cases hw : sink.waitForReceipt tx with
    | error err => simp [hs, hw]
    | ok u => simp [hs, hw]

theorem chooseSegment_submits_move_witness :
    (1 : Fin 65536).val < ([11, 22, 33, 44] : List Nat).length ∧
    chooseSegment sink0 1 [11, 22, 33, 44] =
      (sinkRun sink0 (moveFor 1 [11, 22, 33, 44]), [moveFor 1 [11, 22, 33, 44]]) ∧
    (moveFor 1 [11, 22, 33, 44]).leafValue = 22 ∧
    (moveFor 1 [11, 22, 33, 44]).proof.length = 2 ∧
    (moveFor 1 [11, 22, 33, 44]).segmentIndex = 1 :=
  ⟨by decide,
   chooseSegment_submits_move sink0 1 [11, 22, 33, 44] (by decide),
   by decide, by decide, by decide⟩

theorem startConnection_cases (env : EthEnv) (addr : Address)
    (live : List SelectEvent) :
    (StartConnection env addr live).ret = ConnOutcome.ok ∨
    ((StartConnection env addr live).errChan = [] ∧
      (StartConnection env addr live).taskStarted = false ∧
      (StartConnection env addr live).subscribed = false ∧
      (StartConnection env addr live).unsubscribed = false) := by
  cases hb : env.baseStartOk with
  | false => right; simp [StartConnection, hb]
  | true =>
    cases hsu : env.setupOk with
    | false => right; simp [StartConnection, hb, hsu]
    | true =>
      cases hh : env.headerByNumber with
      | none => right; simp [StartConnection, hb, hsu, hh]
      | some hd =>
        cases hf : env.filterLogsOk with
        | false => right; simp [StartConnection, hb, hsu, hh, hf]
        | true =>
          cases ho : (runHistorical env addr (histMatching env addr hd.number)).2 with
          | failed g => right; simp [StartConnection, hb, hsu, hh, hf, ho]
          | panicked => right; simp [StartConnection, hb, hsu, hh, hf, ho]
          | ok =>
            cases hsb : env.subscribeOk with
            | false => right; simp [StartConnection, hb, hsu, hh, hf, ho, hsb]
            | true => left; simp [StartConnection, hb, hsu, hh, hf, ho, hsb]

/-- Claim C8: whenever `StartConnection` returns an error — base connection,
contract setup, head-header read, historical query, or any historical entry
failing — the error is the function's own return value: nothing is put on
the error channel, no background task is started, and no live subscription
is created or held. -/
theorem startConnection_startup_errors_direct (env : EthEnv) (addr : Address)
    (live : List SelectEvent) (g : GoErr)
    (h : (StartConnection env addr live).ret = ConnOutcome.err g) :
    (StartConnection env addr live).errChan = [] ∧
    (StartConnection env addr live).taskStarted = false ∧
    (StartConnection env addr live).subscribed = false ∧
    (StartConnection env addr live).unsubscribed = false := by
  rcases startConnection_cases env addr live with hok | hr
  · rw [hok] at h
    exact absurd h (by simp)
  · exact hr

theorem startConnection_startup_errors_direct_witness :
    (StartConnection envBaseFail 1 []).ret = ConnOutcome.err GoErr.baseStartFailed ∧
    (StartConnection envBaseFail 1 []).errChan = [] ∧
    (StartConnection envBaseFail 1 []).taskStarted = false ∧
    (StartConnection envBaseFail 1 []).subscribed = false ∧
    (StartConnection envBaseFail 1 []).unsubscribed = false := by
  refine ⟨by decide, ?_⟩
  have := startConnection_startup_errors_direct envBaseFail 1 [] GoErr.baseStartFailed
    (by decide)
  exact ⟨this.1, this.2.1, this.2.2.1, this.2.2.2⟩

/-- Claim C9: `processEvents` reads the first topic without checking the
topic list: on an entry with an empty topic list (and a resolvable header,
so execution reaches the access) the operation has no defined result; it is
total for every entry with at least one topic. -/
theorem processEvents_topics_total :
    (∀ (env : EthEnv) (addr : Address) (e : LogEntry),
      (env.headerByHash e.blockHash).isSome = true → e.topics = [] →
      processEvents env addr e = none) ∧
    (∀ (env : EthEnv) (addr : Address) (e : LogEntry),
      e.topics ≠ [] → (processEvents env addr e).isSome = true) := by
  constructor
  · intro env addr e hh ht
    obtain ⟨hdr, hh2⟩ := Option.isSome_iff_exists.mp hh
    simp [processEvents, hh2, ht]
  · intro env addr e ht
    unfold processEvents
    cases hh : env.headerByHash e.blockHash with
    | none => simp
    | some hdr =>
      cases hht : e.topics.head? with
      | none => exact absurd (List.head?_eq_none_iff.mp hht) ht
      | some t0 =>
        by_cases heq : t0 = env.continuedChallengeID
        · cases hp : env.parseContinued e <;> simp [heq, hp]
        · simp [heq]

theorem processEvents_topics_total_witness :
    (envScripted.headerByHash entryNoTopics.blockHash).isSome = true ∧
    entryNoTopics.topics = [] ∧
    processEvents envScripted 1 entryNoTopics = none ∧
    entry2.topics ≠ [] ∧
    (processEvents envScripted 1 entry2).isSome = true :=
  ⟨by decide, rfl,
   processEvents_topics_total.1 envScripted 1 entryNoTopics (by decide) rfl,
   by decide,
   processEvents_topics_total.2 envScripted 1 entry2 (by decide)⟩

/-- Claim C10: the segment index of `chooseSegment` is a 16-bit unsigned
integer (domain `Fin 65536`, i.e. `[0, 65535]`), and the conversion
`big.NewInt(int64(segmentToChallenge))` of that index to the
arbitrary-precision integer submitted in the move is exact: it equals the
index's value, is never negative, and never exceeds the `int64` range. -/
theorem segmentIndexArg_exact (s : Fin 65536) :
    segmentIndexArg s = (s.val : Int) ∧
    0 ≤ segmentIndexArg s ∧
    s.val ≤ 65535 ∧
    segmentIndexArg s < 2 ^ 63 := by
  have hs : s.val < 65536 := s.isLt
  have h64 : s.val % 2 ^ 64 = s.val := Nat.mod_eq_of_lt (by omega)
  have h63 : s.val % 2 ^ 64 < 2 ^ 63 := by rw [h64]; omega
  have harg : segmentIndexArg s = (s.val : Int) := by
    unfold segmentIndexArg int64Of
    rw [if_pos h63, h64]
  refine ⟨harg, ?_, by omega, ?_⟩
  · rw [harg]; exact Int.natCast_nonneg _
  · rw [harg]
    have : (s.val : Int) < (65536 : Nat) := by exact_mod_cast hs
    omega
